import Mathlib

/-!
Shallow embedding of the core of `ephemeris_time.py`: the transit-time
derivation (`calculate_transit_times`), the admission filter and greedy
earliest-finish scheduler (`optimize_schedule`), and the equivalence
counter (`count_max_schedules`).

Modelling conventions:
* timestamps and timedeltas are exact rationals, measured in minutes
  (`pd.Timedelta(minutes=30)` is `30`, `pd.Timedelta(hours=h)` is `60*h`);
* a float that may be NaN (`transitduration`, `ingressairmass`,
  `egressairmass`) is an `Option ℚ` with `none` playing the role of
  NaN/missing (`pd.isna`); all other numeric fields are plain rationals;
* a Python tuple-or-False parameter such as `period_limit` is an
  `Option (ℚ × ℚ)` (`none` = disabled, matching Python falsiness);
* the DataFrame is a list of rows plus the two column-existence facts the
  code queries (`'ingressairmass' in df.columns`, likewise egress);
* `df.sort_values(by='Transit End Time')` is modelled with `List.mergeSort`
  on the transit-end key (pandas guarantees an end-sorted permutation; the
  tie order of its default quicksort is not part of the library contract,
  so the stable tie order of `mergeSort` here is a modelling choice).
-/

namespace Ephemeris

/-- One input record (one row of the CSV DataFrame), with the fields
`optimize_schedule` reads. `none` models NaN for the duration and the two
optional air-mass values. -/
structure Row where
  planetname : String
  transitduration : Option ℚ
  midpointcalendar : ℚ
  ra : ℚ
  dec : ℚ
  period : ℚ
  transitdepthcalc : ℚ
  midpointairmass : ℚ
  ingressairmass : Option ℚ
  egressairmass : Option ℚ
  magnitude_k : ℚ
deriving DecidableEq, Repr

/-- The DataFrame: its rows plus the column-existence facts that
`optimize_schedule` checks once per run. -/
structure Table where
  rows : List Row
  ingress_column_exists : Bool
  egress_column_exists : Bool
deriving DecidableEq, Repr

/-- The keyword parameters of `optimize_schedule`.  A Python
"tuple or False/None" option is an `Option` pair. -/
structure Config where
  magnitude_limit : Option (ℚ × ℚ)
  air_mass_lim : Bool
  setup_time : Bool
  period_limit : Option (ℚ × ℚ)
  transit_depth_limit : Option (ℚ × ℚ)
  max_airmass : ℚ × ℚ
  nanignore_airmass : Bool
  time_window : Option ℚ × Option ℚ
deriving DecidableEq, Repr

/-- `pd.Timedelta(minutes=m)` in minutes. -/
def Timedelta_minutes (m : ℚ) : ℚ := m

/-- `pd.Timedelta(hours=h)` in minutes. -/
def Timedelta_hours (h : ℚ) : ℚ := 60 * h

/-- `calculate_transit_times`: transit start/end from midpoint and duration,
with a 30-minute pad on each side when `setup_time` is set. -/
def calculate_transit_times (midpoint : ℚ) (duration : ℚ) (setup_time : Bool) :
    ℚ × ℚ :=
  if setup_time then
    (midpoint - Timedelta_minutes 30 - Timedelta_hours (duration / 2),
     midpoint + Timedelta_minutes 30 + Timedelta_hours (duration / 2))
  else
    (midpoint - Timedelta_hours (duration / 2),
     midpoint + Timedelta_hours (duration / 2))

/-- `current_row_info` once populated: the 11-column row of a valid
candidate, with concrete derived transit times. -/
structure Candidate where
  name : String
  duration : ℚ
  midpoint : ℚ
  tStart : ℚ
  tEnd : ℚ
  ra : ℚ
  dec : ℚ
  period : ℚ
  transitdepth : ℚ
  air_mass : ℚ
  mag_k : ℚ
deriving DecidableEq, Repr

/-- A cut-list row: the 11 data columns (derived times possibly absent,
as in the `[..., None, None, ...]` entries) plus the rejection cause. -/
structure CutEntry where
  name : String
  duration : Option ℚ
  midpoint : ℚ
  tStart : Option ℚ
  tEnd : Option ℚ
  ra : ℚ
  dec : ℚ
  period : ℚ
  transitdepth : ℚ
  air_mass : ℚ
  mag_k : ℚ
  cause : String
deriving DecidableEq, Repr

/-- A cut entry made before any transit times exist:
`[name, duration, midpoint, None, None, ra, dec, period, transitdepth,
air_mass, mag_k, cause]`. -/
def earlyCut (row : Row) (cause : String) : CutEntry :=
  { name := row.planetname, duration := row.transitduration,
    midpoint := row.midpointcalendar, tStart := none, tEnd := none,
    ra := row.ra, dec := row.dec, period := row.period,
    transitdepth := row.transitdepthcalc, air_mass := row.midpointairmass,
    mag_k := row.magnitude_k, cause := cause }

/-- A cut entry made from a populated `current_row_info`
(`current_row_info + [cause]`). -/
def candidateCut (c : Candidate) (cause : String) : CutEntry :=
  { name := c.name, duration := some c.duration, midpoint := c.midpoint,
    tStart := some c.tStart, tEnd := some c.tEnd, ra := c.ra, dec := c.dec,
    period := c.period, transitdepth := c.transitdepth,
    air_mass := c.air_mass, mag_k := c.mag_k, cause := cause }

/-- The time-window cut entry:
`current_row_info + [cause] if current_row_info else
 [name, duration, midpoint, None, None, ..., cause]`.
The `some` branch mirrors the source's reuse branch; at the call site
`current_row_info` is still `None`. -/
def preCandidateCut (current_row_info : Option Candidate) (row : Row)
    (cause : String) : CutEntry :=
  match current_row_info with
  | some info => candidateCut info cause
  | none => earlyCut row cause

/-- `pd.isna(duration)`. -/
def durationIsNaN (row : Row) : Bool := row.transitduration.isNone

/-- The duration value in the non-NaN branches of the loop body. -/
def durValue (row : Row) : ℚ := row.transitduration.getD 0

/-- `period_limit and (period < period_limit[0] or period > period_limit[1])`. -/
def periodFails (cfg : Config) (row : Row) : Bool :=
  match cfg.period_limit with
  | none => false
  | some (lo, hi) => decide (row.period < lo) || decide (row.period > hi)

/-- The derived transit times of a row, as the loop body computes them. -/
def transitTimes (cfg : Config) (row : Row) : ℚ × ℚ :=
  calculate_transit_times row.midpointcalendar (durValue row) cfg.setup_time

/-- `window_start is not None and transit_start_time < window_start`. -/
def windowStartFails (cfg : Config) (row : Row) : Bool :=
  match cfg.time_window.1 with
  | none => false
  | some window_start => decide ((transitTimes cfg row).1 < window_start)

/-- `window_end is not None and transit_end_time > window_end`. -/
def windowEndFails (cfg : Config) (row : Row) : Bool :=
  match cfg.time_window.2 with
  | none => false
  | some window_end => decide ((transitTimes cfg row).2 > window_end)

/-- `magnitude_limit and (mag_k < magnitude_limit[0] or mag_k > magnitude_limit[1])`. -/
def magFails (cfg : Config) (row : Row) : Bool :=
  match cfg.magnitude_limit with
  | none => false
  | some (lo, hi) =>
    decide (row.magnitude_k < lo) || decide (row.magnitude_k > hi)

/-- `air_mass_lim and air_mass > 2`. -/
def airMassFails (cfg : Config) (row : Row) : Bool :=
  cfg.air_mass_lim && decide (row.midpointairmass > 2)

/-- `transit_depth_limit and (transitdepth < lo or transitdepth > hi)`. -/
def depthFails (cfg : Config) (row : Row) : Bool :=
  match cfg.transit_depth_limit with
  | none => false
  | some (lo, hi) =>
    decide (row.transitdepthcalc < lo) || decide (row.transitdepthcalc > hi)

/-- `row.get('ingressairmass', None) if ingress_column_exists else None`. -/
def effIngress (tbl : Table) (row : Row) : Option ℚ :=
  if tbl.ingress_column_exists then row.ingressairmass else none

/-- `row.get('egressairmass', None) if egress_column_exists else None`. -/
def effEgress (tbl : Table) (row : Row) : Option ℚ :=
  if tbl.egress_column_exists then row.egressairmass else none

/-- `not nanignore_airmass and (pd.isna(ingress) or pd.isna(egress))`. -/
def nanAirmassFails (cfg : Config) (tbl : Table) (row : Row) : Bool :=
  !cfg.nanignore_airmass &&
    ((effIngress tbl row).isNone || (effEgress tbl row).isNone)

/-- The cause string of the NaN-air-mass branch, depending on whether both
optional columns exist in the source. -/
def nanCause (tbl : Table) : String :=
  if tbl.ingress_column_exists && tbl.egress_column_exists then
    "NaN in ingress/egress air mass"
  else
    "Ingress/Egress air mass data missing"

/-- `(not isna(ingress) and ingress > maxingressairmass) or
    (not isna(egress) and egress > maxegressairmass)`. -/
def airmassLimitFails (cfg : Config) (tbl : Table) (row : Row) : Bool :=
  (match effIngress tbl row with
   | none => false
   | some v => decide (v > cfg.max_airmass.1)) ||
  (match effEgress tbl row with
   | none => false
   | some v => decide (v > cfg.max_airmass.2))

/-- The loop body of `optimize_schedule` for one row: either a populated
`current_row_info` appended to `valid_candidates`, or a cut entry with the
first matching rejection cause. -/
def classify (cfg : Config) (tbl : Table) (row : Row) : Candidate ⊕ CutEntry :=
  if durationIsNaN row then .inr (earlyCut row "Duration is NaN")
  else if periodFails cfg row then .inr (earlyCut row "Period limit exceeded")
  else
    let times := transitTimes cfg row
    let windowCause : Option String :=
      if windowStartFails cfg row then
        some "Transit start time is before the time window"
      else if windowEndFails cfg row then
        some "Transit end time is after the time window"
      else none
    match windowCause with
    | some cause => .inr (preCandidateCut none row cause)
    | none =>
      let current_row_info : Candidate :=
        { name := row.planetname, duration := durValue row,
          midpoint := row.midpointcalendar, tStart := times.1,
          tEnd := times.2, ra := row.ra, dec := row.dec,
          period := row.period, transitdepth := row.transitdepthcalc,
          air_mass := row.midpointairmass, mag_k := row.magnitude_k }
      if magFails cfg row then
        .inr (candidateCut current_row_info "Magnitude limit exceeded")
      else if airMassFails cfg row then
        .inr (candidateCut current_row_info "Air mass limit exceeded")
      else if depthFails cfg row then
        .inr (candidateCut current_row_info "Transit depth limit exceeded")
      else if nanAirmassFails cfg tbl row then
        .inr (candidateCut current_row_info (nanCause tbl))
      else if airmassLimitFails cfg tbl row then
        .inr (candidateCut current_row_info
              "Ingress/Egress air mass limit exceeded")
      else .inl current_row_info

/-- The admission loop over the rows: `valid_candidates` and the pre-greedy
`cut_list`, both in row order. -/
def filterRows (cfg : Config) (tbl : Table) : List Row → List Candidate × List CutEntry
  | [] => ([], [])
  | row :: rest =>
    let r := filterRows cfg tbl rest
    match classify cfg tbl row with
    | .inl cand => (cand :: r.1, r.2)
    | .inr cut => (r.1, cut :: r.2)

/-- The sort key of `sort_values(by='Transit End Time')`. -/
def endLe (a b : Candidate) : Bool := decide (a.tEnd ≤ b.tEnd)

/-- The effective (schedule) start/end the greedy loop compares:
a further 30-minute pad on each side when `setup_time` is set. -/
def scheduleTimes (setup_time : Bool) (c : Candidate) : ℚ × ℚ :=
  if setup_time then
    (c.tStart - Timedelta_minutes 30, c.tEnd + Timedelta_minutes 30)
  else (c.tStart, c.tEnd)

/-- `schedule_start_time`: the effective start the greedy loop compares. -/
def effStart (setup_time : Bool) (c : Candidate) : ℚ :=
  (scheduleTimes setup_time c).1

/-- `schedule_end_time`: the effective end the greedy loop records. -/
def effEnd (setup_time : Bool) (c : Candidate) : ℚ :=
  (scheduleTimes setup_time c).2

/-- `last_end_time is None or schedule_start_time >= last_end_time`. -/
def okStart (last_end_time : Option ℚ) (s : ℚ) : Bool :=
  match last_end_time with
  | none => true
  | some t => decide (t ≤ s)

/-- The greedy forward pass of `optimize_schedule` over the end-sorted
candidates: accepted rows in order, and the overlap cut entries in order. -/
def greedyPass (setup_time : Bool) (last_end_time : Option ℚ) :
    List Candidate → List Candidate × List CutEntry
  | [] => ([], [])
  | c :: rest =>
    if okStart last_end_time (effStart setup_time c) then
      let r := greedyPass setup_time (some (effEnd setup_time c)) rest
      (c :: r.1, r.2)
    else
      let r := greedyPass setup_time last_end_time rest
      (r.1, candidateCut c "Overlapping with another target" :: r.2)

/-- `optimize_schedule`: admission filter, end-time sort, greedy pass.
Returns the optimized schedule and the cut list (pre-admission rejections
in row order, then overlap rejections in scan order). -/
def optimize_schedule (cfg : Config) (tbl : Table) :
    List Candidate × List CutEntry :=
  let fr := filterRows cfg tbl tbl.rows
  let valid_candidates := fr.1
  let sortedCands := valid_candidates.mergeSort endLe
  let g := greedyPass cfg.setup_time none sortedCands
  (g.1, fr.2 ++ g.2)

/-- The inner reduction of `count_max_schedules`: the greedy forward scan
over a candidate schedule as given (no re-sorting), comparing `event[3]`
(transit start) against the last accepted `event[4]` (transit end). -/
def tempScheduleOf (last_end_time : Option ℚ) :
    List Candidate → List Candidate
  | [] => []
  | e :: rest =>
    if okStart last_end_time e.tStart then
      e :: tempScheduleOf (some e.tEnd) rest
    else tempScheduleOf last_end_time rest

/-- `count_max_schedules`: how many candidate schedules reduce, by the same
greedy scan, to exactly as many events as the optimized schedule has. -/
def count_max_schedules (all_schedules : List (List Candidate))
    (optimized_schedule : List Candidate) : ℕ :=
  let max_transit_count := optimized_schedule.length
  all_schedules.foldl
    (fun max_schedules_count candidate_schedule =>
      if (tempScheduleOf none candidate_schedule).length = max_transit_count
      then max_schedules_count + 1 else max_schedules_count) 0

/-- The rejection cause of a classified row (`none` for an admitted row). -/
def causeOf (r : Candidate ⊕ CutEntry) : Option String :=
  match r with
  | .inl _ => none
  | .inr e => some e.cause

/-- A cause produced by the time-window checks. -/
def isWindowCause (o : Option String) : Prop :=
  o = some "Transit start time is before the time window" ∨
  o = some "Transit end time is after the time window"

/-- The config with the setup flag replaced, all other options unchanged. -/
def setSetup (cfg : Config) (b : Bool) : Config := { cfg with setup_time := b }

/-- The nine input columns an event keeps through the pipeline (derived
times and causes stripped), used to state that no event is dropped or
duplicated. -/
structure RowCore where
  name : String
  duration : Option ℚ
  midpoint : ℚ
  ra : ℚ
  dec : ℚ
  period : ℚ
  transitdepth : ℚ
  air_mass : ℚ
  mag_k : ℚ
deriving DecidableEq, Repr

/-- The input columns of a raw row. -/
def Row.core (r : Row) : RowCore :=
  { name := r.planetname, duration := r.transitduration,
    midpoint := r.midpointcalendar, ra := r.ra, dec := r.dec,
    period := r.period, transitdepth := r.transitdepthcalc,
    air_mass := r.midpointairmass, mag_k := r.magnitude_k }

/-- The input columns of a valid candidate. -/
def Candidate.core (c : Candidate) : RowCore :=
  { name := c.name, duration := some c.duration, midpoint := c.midpoint,
    ra := c.ra, dec := c.dec, period := c.period,
    transitdepth := c.transitdepth, air_mass := c.air_mass,
    mag_k := c.mag_k }

/-- The input columns of a cut-list entry. -/
def CutEntry.core (e : CutEntry) : RowCore :=
  { name := e.name, duration := e.duration, midpoint := e.midpoint,
    ra := e.ra, dec := e.dec, period := e.period,
    transitdepth := e.transitdepth, air_mass := e.air_mass,
    mag_k := e.mag_k }

/-- The classified row's input columns, whichever side it landed on. -/
def sumCore (r : Candidate ⊕ CutEntry) : RowCore :=
  match r with
  | .inl c => c.core
  | .inr e => e.core

/-- Two events do not overlap (touching allowed), on the effective times. -/
def NonOverlap (setup_time : Bool) (a b : Candidate) : Prop :=
  effEnd setup_time a ≤ effStart setup_time b ∨
  effEnd setup_time b ≤ effStart setup_time a

instance NonOverlap.decRel (setup_time : Bool) :
    DecidableRel (NonOverlap setup_time) := fun a b =>
  inferInstanceAs (Decidable
    (effEnd setup_time a ≤ effStart setup_time b ∨
     effEnd setup_time b ≤ effStart setup_time a))

/-- Ordering by effective end time. -/
def effEndLe (setup_time : Bool) (a b : Candidate) : Prop :=
  effEnd setup_time a ≤ effEnd setup_time b

/-- A feasible greedy selection: each event starts at or after the running
last accepted end, which then advances to that event's effective end. -/
def chainOk (setup_time : Bool) : Option ℚ → List Candidate → Prop
  | _, [] => True
  | last, c :: rest =>
    okStart last (effStart setup_time c) = true ∧
    chainOk setup_time (some (effEnd setup_time c)) rest

/-- The maximum cardinality of a pairwise non-overlapping subset of a list
of candidates (a subset of a list is a sublist, non-overlap being
order-independent). -/
def maxCompat (setup_time : Bool) (l : List Candidate) : ℕ :=
  ((l.sublists.filter
      (fun S => decide (S.Pairwise (NonOverlap setup_time)))).map
    List.length).foldr Nat.max 0

/-- Modelled from the spec (section 4.2): the admission checks in their
required priority order, each paired with its cause, for comparison with
the classifier's first-match behaviour. -/
def checkList (cfg : Config) (tbl : Table) (row : Row) :
    List (Bool × String) :=
  [ (durationIsNaN row, "Duration is NaN"),
    (periodFails cfg row, "Period limit exceeded"),
    (windowStartFails cfg row, "Transit start time is before the time window"),
    (windowEndFails cfg row, "Transit end time is after the time window"),
    (magFails cfg row, "Magnitude limit exceeded"),
    (airMassFails cfg row, "Air mass limit exceeded"),
    (depthFails cfg row, "Transit depth limit exceeded"),
    (nanAirmassFails cfg tbl row, nanCause tbl),
    (airmassLimitFails cfg tbl row, "Ingress/Egress air mass limit exceeded") ]

/-- The cause of the first failing check of `checkList`, if any. -/
def firstFailingCause (cfg : Config) (tbl : Table) (row : Row) :
    Option String :=
  ((checkList cfg tbl row).find? (fun c => c.1)).map (fun c => c.2)

/-! ### Concrete fixtures for witnesses and counterexamples -/

/-- A permissive configuration (the source's default keyword values,
without setup buffering). -/
def cfg0 : Config :=
  { magnitude_limit := some (0, 145 / 10), air_mass_lim := true,
    setup_time := false, period_limit := none,
    transit_depth_limit := some (0, 1 / 2), max_airmass := (2, 2),
    nanignore_airmass := false, time_window := (none, none) }

/-- A fully in-range row with the given name, duration (hours) and
midpoint (minutes). -/
def mkRow (n : String) (d : ℚ) (m : ℚ) : Row :=
  { planetname := n, transitduration := some d, midpointcalendar := m,
    ra := 0, dec := 0, period := 1, transitdepthcalc := 1 / 10,
    midpointairmass := 1, ingressairmass := some 1, egressairmass := some 1,
    magnitude_k := 10 }

/-- Three admissible events: A 10:00-11:00, B 10:30-11:30, C 11:00-12:00
(in minutes of the day). -/
def tblA : Table :=
  { rows := [mkRow "A" 1 630, mkRow "B" 1 660, mkRow "C" 1 690],
    ingress_column_exists := true, egress_column_exists := true }

/-- A single admissible row. -/
def tblOne : Table :=
  { rows := [mkRow "A" 1 630],
    ingress_column_exists := true, egress_column_exists := true }

/-- A malformed configuration: magnitude range with max `<` min. -/
def cfgBadMag : Config :=
  { cfg0 with magnitude_limit := some (10, 0) }

/-- The permissive configuration with setup buffering enabled. -/
def cfgSetup : Config := { cfg0 with setup_time := true }

/-- A row at midpoint 0 with a two-hour duration. -/
def rowC5 : Row := mkRow "P" 2 0

/-- The candidate the filter derives from `rowC5` under `cfgSetup`:
transit times already carry the 30-minute pad. -/
def candC5 : Candidate :=
  { name := "P", duration := 2, midpoint := 0, tStart := -90, tEnd := 90,
    ra := 0, dec := 0, period := 1, transitdepth := 1 / 10, air_mass := 1,
    mag_k := 10 }

/-- A configuration whose time window starts late enough to reject
`tblOne`'s row. -/
def cfgWindow : Config := { cfg0 with time_window := (some 1000, none) }

/-! ### Theorems -/

/-- C9 counterexample: with duration 0 and the setup flag off the derived
interval is zero-width, so transit-start `<` transit-end fails. -/
theorem calculate_transit_times_zero_width :
    ¬ ((calculate_transit_times 0 0 false).1 <
       (calculate_transit_times 0 0 false).2) := by
  norm_num [calculate_transit_times, Timedelta_hours]

/-- C9 (amended): for every nonnegative duration the derivation is total
with transit-start `≤` transit-end; the inequality is strict whenever the
setup flag is on or the duration is positive; duration 0 yields the
degenerate interval (a single point without setup, a symmetric hour-wide
pad with setup) rather than a failure. -/
theorem calculate_transit_times_width (m d : ℚ) (s : Bool) (hd : 0 ≤ d) :
    (calculate_transit_times m d s).1 ≤ (calculate_transit_times m d s).2 ∧
    ((s = true ∨ 0 < d) →
      (calculate_transit_times m d s).1 < (calculate_transit_times m d s).2) ∧
    calculate_transit_times m 0 s = (if s then (m - 30, m + 30) else (m, m)) := by
  cases s with
  | false =>
    refine ⟨?_, ?_, ?_⟩
    · simp only [calculate_transit_times, Timedelta_hours, Bool.false_eq_true,
        if_false]
      linarith
    · intro h
      rcases h with h | h
      · exact absurd h (by simp)
      · simp only [calculate_transit_times, Timedelta_hours,
          Bool.false_eq_true, if_false]
        linarith
    · simp [calculate_transit_times, Timedelta_hours]
  | true =>
    refine ⟨?_, ?_, ?_⟩
    · simp only [calculate_transit_times, Timedelta_hours, Timedelta_minutes,
        if_true]
      linarith
    · intro h
      simp only [calculate_transit_times, Timedelta_hours, Timedelta_minutes,
        if_true]
      linarith
    · simp only [calculate_transit_times, Timedelta_hours, Timedelta_minutes,
        if_true]
      norm_num

/-- C9 witness: the amended statement at midpoint 0, duration 0, setup off. -/
theorem calculate_transit_times_width_witness :
    (calculate_transit_times 0 0 false).1 ≤ (calculate_transit_times 0 0 false).2 ∧
    ((false = true ∨ (0 : ℚ) < 0) →
      (calculate_transit_times 0 0 false).1 < (calculate_transit_times 0 0 false).2) ∧
    calculate_transit_times 0 0 false =
      (if false then ((0 : ℚ) - 30, (0 : ℚ) + 30) else (0, 0)) :=
  calculate_transit_times_width 0 0 false (le_refl 0)

/-- Folding the "count a match" step of `count_max_schedules` counts the
matching elements. -/
theorem countP_foldl_aux {α : Type} (p : α → Prop) [DecidablePred p] :
    ∀ (l : List α) (n : ℕ),
      l.foldl (fun acc c => if p c then acc + 1 else acc) n =
        n + l.countP (fun c => decide (p c))
  | [], n => by simp
  | c :: cs, n => by
    by_cases h : p c
    · simp [List.countP_cons, h, countP_foldl_aux p cs]
      omega
    · simp [List.countP_cons, h, countP_foldl_aux p cs]

/-- C8: `count_max_schedules` returns the number of candidate schedules
whose greedy forward-scan reduction (in the given order, start at index 3
against last accepted end at index 4) has exactly the reference schedule's
cardinality. -/
theorem count_max_schedules_spec (all_schedules : List (List Candidate))
    (optimized_schedule : List Candidate) :
    count_max_schedules all_schedules optimized_schedule =
      all_schedules.countP
        (fun cs =>
          decide ((tempScheduleOf none cs).length =
            optimized_schedule.length)) := by
  simpa [count_max_schedules] using
    countP_foldl_aux
      (fun cs => (tempScheduleOf none cs).length = optimized_schedule.length)
      all_schedules 0

/-- C10: a row rejected by either time-window check is recorded in the cut
list with absent (`None`) transit start and end times; the populated-row
branch of that cut entry is unreachable because `current_row_info` is still
`None` at the window check. -/
theorem classify_window_cut_null_times (cfg : Config) (tbl : Table)
    (row : Row) (e : CutEntry) (h : classify cfg tbl row = .inr e)
    (hc : e.cause = "Transit start time is before the time window" ∨
          e.cause = "Transit end time is after the time window") :
    e.tStart = none ∧ e.tEnd = none := by
  by_cases h1 : durationIsNaN row
  · simp only [classify, h1, if_true, Sum.inr.injEq] at h
    subst h
    exact ⟨rfl, rfl⟩
  · by_cases h2 : periodFails cfg row
    · simp only [classify, h1, h2, if_true, if_false, Bool.false_eq_true,
        Sum.inr.injEq] at h
      subst h
      exact ⟨rfl, rfl⟩
    · by_cases h3 : windowStartFails cfg row
      · simp only [classify, h1, h2, h3, if_true, if_false,
          Bool.false_eq_true, Sum.inr.injEq] at h
        subst h
        exact ⟨rfl, rfl⟩
      · by_cases h4 : windowEndFails cfg row
        · simp only [classify, h1, h2, h3, h4, if_true, if_false,
            Bool.false_eq_true, Sum.inr.injEq] at h
          subst h
          exact ⟨rfl, rfl⟩
        · by_cases h5 : magFails cfg row
          · simp only [classify, h1, h2, h3, h4, h5, if_true, if_false,
              Bool.false_eq_true, Sum.inr.injEq] at h
            subst h
            simp [candidateCut] at hc
          · by_cases h6 : airMassFails cfg row
            · simp only [classify, h1, h2, h3, h4, h5, h6, if_true, if_false,
                Bool.false_eq_true, Sum.inr.injEq] at h
              subst h
              simp [candidateCut] at hc
            · by_cases h7 : depthFails cfg row
              · simp only [classify, h1, h2, h3, h4, h5, h6, h7, if_true,
                  if_false, Bool.false_eq_true, Sum.inr.injEq] at h
                subst h
                simp [candidateCut] at hc
              · by_cases h8 : nanAirmassFails cfg tbl row
                · simp only [classify, h1, h2, h3, h4, h5, h6, h7, h8,
                    if_true, if_false, Bool.false_eq_true, Sum.inr.injEq] at h
                  subst h
                  simp only [candidateCut] at hc
                  unfold nanCause at hc
                  rcases hc with hc | hc <;> split at hc <;> simp at hc
                · by_cases h9 : airmassLimitFails cfg tbl row
                  · simp only [classify, h1, h2, h3, h4, h5, h6, h7, h8, h9,
                      if_true, if_false, Bool.false_eq_true,
                      Sum.inr.injEq] at h
                    subst h
                    simp [candidateCut] at hc
                  · simp [classify, h1, h2, h3, h4, h5, h6, h7, h8, h9] at h

/-- C10 witness: the single row of `tblOne` is rejected by the window start
check of `cfgWindow` and its cut entry records no transit times. -/
theorem classify_window_cut_null_times_witness :
    (earlyCut (mkRow "A" 1 630)
      "Transit start time is before the time window").tStart = none ∧
    (earlyCut (mkRow "A" 1 630)
      "Transit start time is before the time window").tEnd = none :=
  classify_window_cut_null_times cfgWindow tblOne (mkRow "A" 1 630)
    (earlyCut (mkRow "A" 1 630)
      "Transit start time is before the time window")
    (by norm_num [classify, durationIsNaN, periodFails, windowStartFails,
      windowEndFails, preCandidateCut, transitTimes, calculate_transit_times,
      durValue, mkRow, cfgWindow, cfg0, tblOne, Timedelta_minutes,
      Timedelta_hours]) (Or.inl rfl)

/-- What `classify` guarantees about an admitted row: every filter passed
and the candidate's fields are the row's fields together with the derived
transit times. -/
theorem classify_inl_facts (cfg : Config) (tbl : Table) (row : Row)
    (c : Candidate) (h : classify cfg tbl row = .inl c) :
    durationIsNaN row = false ∧ magFails cfg row = false ∧
    row.transitduration = some c.duration ∧ c.duration = durValue row ∧
    c.midpoint = row.midpointcalendar ∧
    c.tStart = (transitTimes cfg row).1 ∧
    c.tEnd = (transitTimes cfg row).2 := by
  by_cases h1 : durationIsNaN row
  · simp [classify, h1] at h
  · by_cases h2 : periodFails cfg row
    · simp [classify, h1, h2] at h
    · by_cases h3 : windowStartFails cfg row
      · simp [classify, h1, h2, h3] at h
      · by_cases h4 : windowEndFails cfg row
        · simp [classify, h1, h2, h3, h4] at h
        · by_cases h5 : magFails cfg row
          · simp [classify, h1, h2, h3, h4, h5] at h
          · by_cases h6 : airMassFails cfg row
            · simp [classify, h1, h2, h3, h4, h5, h6] at h
            · by_cases h7 : depthFails cfg row
              · simp [classify, h1, h2, h3, h4, h5, h6, h7] at h
              · by_cases h8 : nanAirmassFails cfg tbl row
                · simp [classify, h1, h2, h3, h4, h5, h6, h7, h8] at h
                · by_cases h9 : airmassLimitFails cfg tbl row
                  · simp [classify, h1, h2, h3, h4, h5, h6, h7, h8, h9] at h
                  · simp only [classify, h1, h2, h3, h4, h5, h6, h7, h8, h9,
                      if_true, if_false, Bool.false_eq_true,
                      Sum.inl.injEq] at h
                    subst h
                    refine ⟨eq_false_of_ne_true h1, eq_false_of_ne_true h5,
                      ?_, rfl, rfl, rfl, rfl⟩
                    unfold durValue
                    cases hd : row.transitduration with
                    | none => exact absurd (by simp [durationIsNaN, hd]) h1
                    | some d => simp

/-- A max-less-than-min magnitude range rejects every magnitude. -/
theorem magFails_of_bad_range (cfg : Config) (row : Row) (lo hi : ℚ)
    (hmag : cfg.magnitude_limit = some (lo, hi)) (hlt : hi < lo) :
    magFails cfg row = true := by
  unfold magFails
  rw [hmag]
  rcases lt_or_le row.magnitude_k lo with h | h
  · simp [h]
  · have hgt : row.magnitude_k > hi := lt_of_lt_of_le hlt h
    simp [hgt]

/-- C7 counterexample: with the malformed magnitude range `(10, 0)` the
pipeline does not stop before processing rows: the single row of `tblOne`
is processed and classified into the cut list with a row-level cause, and
an empty schedule is returned with no failure. -/
theorem optimize_schedule_no_failfast_counterexample :
    (optimize_schedule cfgBadMag tblOne).2.map CutEntry.cause =
      ["Magnitude limit exceeded"] ∧
    (optimize_schedule cfgBadMag tblOne).1 = [] := by
  constructor <;>
    norm_num [optimize_schedule, filterRows, classify, durationIsNaN,
      periodFails, windowStartFails, windowEndFails, magFails, airMassFails,
      depthFails, nanAirmassFails, airmassLimitFails, effIngress, effEgress,
      transitTimes, calculate_transit_times, durValue, mkRow, cfgBadMag,
      cfg0, tblOne, Timedelta_minutes, Timedelta_hours, candidateCut,
      greedyPass, List.mergeSort_nil]

/-- C7 (amended): the pipeline performs no configuration validation; with
a magnitude range whose max is below its min it runs normally, every row
is rejected row-by-row, and the schedule is silently always empty. -/
theorem optimize_schedule_bad_range_empty (cfg : Config) (tbl : Table)
    (lo hi : ℚ) (hmag : cfg.magnitude_limit = some (lo, hi))
    (hlt : hi < lo) : (optimize_schedule cfg tbl).1 = [] := by
  have hempty : ∀ rows : List Row, (filterRows cfg tbl rows).1 = [] := by
    intro rows
    induction rows with
    | nil => rfl
    | cons r rs ih =>
      cases hcl : classify cfg tbl r with
      | inl c =>
        exfalso
        have hmf := (classify_inl_facts cfg tbl r c hcl).2.1
        rw [magFails_of_bad_range cfg r lo hi hmag hlt] at hmf
        simp at hmf
      | inr e => simpa [filterRows, hcl] using ih
  simp [optimize_schedule, hempty, List.mergeSort_nil, greedyPass]

/-- C7 witness: the amended statement at the malformed configuration
`cfgBadMag` on the one-row table. -/
theorem optimize_schedule_bad_range_empty_witness :
    (optimize_schedule cfgBadMag tblOne).1 = [] :=
  optimize_schedule_bad_range_empty cfgBadMag tblOne 10 0 rfl (by norm_num)

/-- The period check does not read the setup flag. -/
theorem periodFails_setSetup (cfg : Config) (b : Bool) (row : Row) :
    periodFails (setSetup cfg b) row = periodFails cfg row := rfl

/-- The magnitude check does not read the setup flag. -/
theorem magFails_setSetup (cfg : Config) (b : Bool) (row : Row) :
    magFails (setSetup cfg b) row = magFails cfg row := rfl

/-- The mid air-mass check does not read the setup flag. -/
theorem airMassFails_setSetup (cfg : Config) (b : Bool) (row : Row) :
    airMassFails (setSetup cfg b) row = airMassFails cfg row := rfl

/-- The transit-depth check does not read the setup flag. -/
theorem depthFails_setSetup (cfg : Config) (b : Bool) (row : Row) :
    depthFails (setSetup cfg b) row = depthFails cfg row := rfl

/-- The NaN ingress/egress check does not read the setup flag. -/
theorem nanAirmassFails_setSetup (cfg : Config) (b : Bool) (tbl : Table)
    (row : Row) :
    nanAirmassFails (setSetup cfg b) tbl row = nanAirmassFails cfg tbl row :=
  rfl

/-- The ingress/egress limit check does not read the setup flag. -/
theorem airmassLimitFails_setSetup (cfg : Config) (b : Bool) (tbl : Table)
    (row : Row) :
    airmassLimitFails (setSetup cfg b) tbl row =
      airmassLimitFails cfg tbl row := rfl

/-- Toggling setup buffering can only change rejection causes through the
time-window checks: if neither run rejects by the window, the causes agree. -/
theorem classify_cause_setup_invariant (cfg : Config) (tbl : Table)
    (row : Row) :
    causeOf (classify (setSetup cfg true) tbl row) =
        causeOf (classify (setSetup cfg false) tbl row) ∨
    isWindowCause (causeOf (classify (setSetup cfg true) tbl row)) ∨
    isWindowCause (causeOf (classify (setSetup cfg false) tbl row)) := by
  by_cases h1 : durationIsNaN row
  · left
    simp [classify, h1, causeOf]
  · by_cases h2 : periodFails cfg row
    · left
      simp [classify, h1, periodFails_setSetup, h2, causeOf]
    · by_cases h3 : windowStartFails (setSetup cfg true) row
      · right; left
        simp [classify, h1, periodFails_setSetup, h2, h3, causeOf,
          isWindowCause, preCandidateCut, earlyCut]
      · by_cases h4 : windowEndFails (setSetup cfg true) row
        · right; left
          simp [classify, h1, periodFails_setSetup, h2, h3, h4, causeOf,
            isWindowCause, preCandidateCut, earlyCut]
        · by_cases h5 : windowStartFails (setSetup cfg false) row
          · right; right
            simp [classify, h1, periodFails_setSetup, h2, h5, causeOf,
              isWindowCause, preCandidateCut, earlyCut]
          · by_cases h6 : windowEndFails (setSetup cfg false) row
            · right; right
              simp [classify, h1, periodFails_setSetup, h2, h5, h6, causeOf,
                isWindowCause, preCandidateCut, earlyCut]
            · left
              simp only [classify, h1, periodFails_setSetup, h2, h3, h4, h5,
                h6, magFails_setSetup, airMassFails_setSetup,
                depthFails_setSetup, nanAirmassFails_setSetup,
                airmassLimitFails_setSetup, if_true, if_false,
                Bool.false_eq_true, ite_false, ite_true]
              by_cases m1 : magFails cfg row
              · simp [m1, causeOf, candidateCut]
              · by_cases m2 : airMassFails cfg row
                · simp [m1, m2, causeOf, candidateCut]
                · by_cases m3 : depthFails cfg row
                  · simp [m1, m2, m3, causeOf, candidateCut]
                  · by_cases m4 : nanAirmassFails cfg tbl row
                    · simp [m1, m2, m3, m4, causeOf, candidateCut]
                    · by_cases m5 : airmassLimitFails cfg tbl row
                      · simp [m1, m2, m3, m4, m5, causeOf, candidateCut]
                      · simp [m1, m2, m3, m4, m5, causeOf]

/-- C5 counterexample: under `cfgSetup` the admitted candidate from
`rowC5` (midpoint 0, duration 2h) already carries the 30-minute pad in its
transit times (start `-90`), and the overlap test pads again, so the
effective start used by the scheduler is `-120`, not the section-4.1 value
`midpoint - 30min - duration/2 = -90`. -/
theorem setup_buffer_counterexample :
    classify cfgSetup tblOne rowC5 = Sum.inl candC5 ∧
    effStart true candC5 = -120 ∧
    rowC5.midpointcalendar - Timedelta_minutes 30 -
      Timedelta_hours (durValue rowC5 / 2) = -90 ∧
    effStart true candC5 ≠
      rowC5.midpointcalendar - Timedelta_minutes 30 -
        Timedelta_hours (durValue rowC5 / 2) := by
  refine ⟨?_, ?_, ?_, ?_⟩ <;>
    norm_num [classify, durationIsNaN, periodFails, windowStartFails,
      windowEndFails, magFails, airMassFails, depthFails, nanAirmassFails,
      airmassLimitFails, effIngress, effEgress, transitTimes,
      calculate_transit_times, durValue, mkRow, cfgSetup, cfg0, tblOne,
      Timedelta_minutes, Timedelta_hours, effStart, scheduleTimes, rowC5,
      candC5]

/-- C5 (amended): with setup buffering on, `calculate_transit_times` shifts
the derived start down and the derived end up by exactly 30 minutes
relative to the unbuffered case; the scheduler's overlap test then
subtracts/adds a further 30 minutes, so the effective start/end of an
admitted event equal `midpoint ∓ 60min ∓ duration/2` (the section-4.1
derivation shifted by an additional 30 minutes outward); toggling the
buffer changes no admission decision of a non-time-window filter. -/
theorem setup_buffer_semantics (cfg : Config) (tbl : Table) (row : Row)
    (m d : ℚ) (c : Candidate) :
    ((calculate_transit_times m d true).1 =
        (calculate_transit_times m d false).1 - Timedelta_minutes 30 ∧
     (calculate_transit_times m d true).2 =
        (calculate_transit_times m d false).2 + Timedelta_minutes 30) ∧
    scheduleTimes true c =
      (c.tStart - Timedelta_minutes 30, c.tEnd + Timedelta_minutes 30) ∧
    (classify cfg tbl row = .inl c → cfg.setup_time = true →
      effStart cfg.setup_time c =
        row.midpointcalendar - Timedelta_minutes 60 -
          Timedelta_hours (durValue row / 2) ∧
      effEnd cfg.setup_time c =
        row.midpointcalendar + Timedelta_minutes 60 +
          Timedelta_hours (durValue row / 2)) ∧
    (causeOf (classify (setSetup cfg true) tbl row) =
        causeOf (classify (setSetup cfg false) tbl row) ∨
     isWindowCause (causeOf (classify (setSetup cfg true) tbl row)) ∨
     isWindowCause (causeOf (classify (setSetup cfg false) tbl row))) := by
  refine ⟨⟨?_, ?_⟩, ?_, ?_, classify_cause_setup_invariant cfg tbl row⟩
  · simp only [calculate_transit_times, Timedelta_minutes, Timedelta_hours,
      if_true, if_false, Bool.false_eq_true]
    ring
  · simp only [calculate_transit_times, Timedelta_minutes, Timedelta_hours,
      if_true, if_false, Bool.false_eq_true]
    ring
  · simp [scheduleTimes]
  · intro h hs
    obtain ⟨-, -, -, -, hmid, hts, hte⟩ := classify_inl_facts cfg tbl row c h
    rw [hs]
    unfold effStart effEnd scheduleTimes
    rw [hts, hte]
    unfold transitTimes at *
    rw [hs] at *
    simp only [calculate_transit_times, Timedelta_minutes, Timedelta_hours,
      if_true]
    constructor <;> ring

/-- C5 witness: the effective-time formula of the amended statement,
discharged at `cfgSetup`, `rowC5` and its admitted candidate `candC5`. -/
theorem setup_buffer_semantics_witness :
    effStart cfgSetup.setup_time candC5 =
      rowC5.midpointcalendar - Timedelta_minutes 60 -
        Timedelta_hours (durValue rowC5 / 2) ∧
    effEnd cfgSetup.setup_time candC5 =
      rowC5.midpointcalendar + Timedelta_minutes 60 +
        Timedelta_hours (durValue rowC5 / 2) :=
  (setup_buffer_semantics cfgSetup tblOne rowC5 0 2 candC5).2.2.1
    (by norm_num [classify, durationIsNaN, periodFails, windowStartFails,
      windowEndFails, magFails, airMassFails, depthFails, nanAirmassFails,
      airmassLimitFails, effIngress, effEgress, transitTimes,
      calculate_transit_times, durValue, mkRow, cfgSetup, cfg0, tblOne,
      Timedelta_minutes, Timedelta_hours, rowC5, candC5]) rfl

/-- C4: the admission filter is first-match-wins in the fixed order
duration-NaN, period, window start, window end, magnitude, mid air mass,
transit depth, NaN/missing ingress-egress air mass, ingress/egress limit:
the recorded cause is exactly the cause of the first failing check. -/
theorem classify_first_match (cfg : Config) (tbl : Table) (row : Row) :
    causeOf (classify cfg tbl row) = firstFailingCause cfg tbl row := by
  by_cases h1 : durationIsNaN row
  · simp [classify, firstFailingCause, checkList, List.find?, h1, causeOf,
      earlyCut]
  · by_cases h2 : periodFails cfg row
    · simp [classify, firstFailingCause, checkList, List.find?, h1, h2,
        causeOf, earlyCut]
    · by_cases h3 : windowStartFails cfg row
      · simp [classify, firstFailingCause, checkList, List.find?, h1, h2,
          h3, causeOf, preCandidateCut, earlyCut]
      · by_cases h4 : windowEndFails cfg row
        · simp [classify, firstFailingCause, checkList, List.find?, h1, h2,
            h3, h4, causeOf, preCandidateCut, earlyCut]
        · by_cases h5 : magFails cfg row
          · simp [classify, firstFailingCause, checkList, List.find?, h1,
              h2, h3, h4, h5, causeOf, candidateCut]
          · by_cases h6 : airMassFails cfg row
            · simp [classify, firstFailingCause, checkList, List.find?, h1,
                h2, h3, h4, h5, h6, causeOf, candidateCut]
            · by_cases h7 : depthFails cfg row
              · simp [classify, firstFailingCause, checkList, List.find?,
                  h1, h2, h3, h4, h5, h6, h7, causeOf, candidateCut]
              · by_cases h8 : nanAirmassFails cfg tbl row
                · simp [classify, firstFailingCause, checkList, List.find?,
                    h1, h2, h3, h4, h5, h6, h7, h8, causeOf, candidateCut]
                · by_cases h9 : airmassLimitFails cfg tbl row
                  · simp [classify, firstFailingCause, checkList,
                      List.find?, h1, h2, h3, h4, h5, h6, h7, h8, h9,
                      causeOf, candidateCut]
                  · simp [classify, firstFailingCause, checkList,
                      List.find?, h1, h2, h3, h4, h5, h6, h7, h8, h9,
                      causeOf]

/-- Classification preserves the input columns of the row. -/
theorem classify_core (cfg : Config) (tbl : Table) (row : Row) :
    sumCore (classify cfg tbl row) = row.core := by
  have hdur : durationIsNaN row = false →
      some (durValue row) = row.transitduration := by
    intro h
    unfold durValue
    cases hd : row.transitduration with
    | none =>
      rw [durationIsNaN, hd] at h
      simp at h
    | some d => simp
  by_cases h1 : durationIsNaN row
  · simp [classify, h1, sumCore, earlyCut, CutEntry.core, Row.core]
  · by_cases h2 : periodFails cfg row
    · simp [classify, h1, h2, sumCore, earlyCut, CutEntry.core, Row.core]
    · by_cases h3 : windowStartFails cfg row
      · simp [classify, h1, h2, h3, sumCore, preCandidateCut, earlyCut,
          CutEntry.core, Row.core]
      · by_cases h4 : windowEndFails cfg row
        · simp [classify, h1, h2, h3, h4, sumCore, preCandidateCut,
            earlyCut, CutEntry.core, Row.core]
        · by_cases h5 : magFails cfg row
          · simp [classify, h1, h2, h3, h4, h5, sumCore, candidateCut,
              CutEntry.core, Row.core]
            exact hdur (eq_false_of_ne_true h1)
          · by_cases h6 : airMassFails cfg row
            · simp [classify, h1, h2, h3, h4, h5, h6, sumCore,
                candidateCut, CutEntry.core, Row.core]
              exact hdur (eq_false_of_ne_true h1)
            · by_cases h7 : depthFails cfg row
              · simp [classify, h1, h2, h3, h4, h5, h6, h7, sumCore,
                  candidateCut, CutEntry.core, Row.core]
                exact hdur (eq_false_of_ne_true h1)
              · by_cases h8 : nanAirmassFails cfg tbl row
                · simp [classify, h1, h2, h3, h4, h5, h6, h7, h8, sumCore,
                    candidateCut, CutEntry.core, Row.core]
                  exact hdur (eq_false_of_ne_true h1)
                · by_cases h9 : airmassLimitFails cfg tbl row
                  · simp [classify, h1, h2, h3, h4, h5, h6, h7, h8, h9,
                      sumCore, candidateCut, CutEntry.core, Row.core]
                    exact hdur (eq_false_of_ne_true h1)
                  · simp [classify, h1, h2, h3, h4, h5, h6, h7, h8, h9,
                      sumCore, Candidate.core, Row.core]
                    exact hdur (eq_false_of_ne_true h1)

/-- The admission loop partitions the rows: candidate cores and cut cores
together are a permutation of the row cores. -/
theorem filterRows_core_perm (cfg : Config) (tbl : Table) (rows : List Row) :
    ((filterRows cfg tbl rows).1.map Candidate.core ++
      (filterRows cfg tbl rows).2.map CutEntry.core).Perm
      (rows.map Row.core) := by
  induction rows with
  | nil => simp [filterRows]
  | cons row rest ih =>
    have hc := classify_core cfg tbl row
    cases hcl : classify cfg tbl row with
    | inl c =>
      rw [hcl] at hc
      simp only [sumCore] at hc
      simp only [filterRows, hcl, List.map_cons, List.cons_append]
      rw [hc]
      exact ih.cons _
    | inr e =>
      rw [hcl] at hc
      simp only [sumCore] at hc
      simp only [filterRows, hcl, List.map_cons]
      refine List.perm_middle.trans ?_
      rw [hc]
      exact ih.cons _

/-- The greedy pass partitions the sorted candidates: accepted cores and
overlap-cut cores together are a permutation of the input cores. -/
theorem greedyPass_core_perm (setup_time : Bool) (l : List Candidate) :
    ∀ last_end_time : Option ℚ,
      ((greedyPass setup_time last_end_time l).1.map Candidate.core ++
        (greedyPass setup_time last_end_time l).2.map CutEntry.core).Perm
        (l.map Candidate.core) := by
  induction l with
  | nil => intro last; simp [greedyPass]
  | cons c rest ih =>
    intro last
    by_cases hok : okStart last (effStart setup_time c) = true
    · simp only [greedyPass, hok, if_true, List.map_cons, List.cons_append]
      exact (ih _).cons _
    · simp only [greedyPass, hok, if_false, Bool.false_eq_true,
        List.map_cons]
      refine List.perm_middle.trans ?_
      have : (candidateCut c "Overlapping with another target").core =
          c.core := rfl
      rw [this]
      exact (ih _).cons _

/-- C3: `optimize_schedule` places every input event in exactly one of the
optimized schedule and the cut list: the input columns of the schedule rows
and the cut-list rows together are a permutation of the input table's rows
(nothing dropped, nothing duplicated). -/
theorem optimize_schedule_partition (cfg : Config) (tbl : Table) :
    ((optimize_schedule cfg tbl).1.map Candidate.core ++
      (optimize_schedule cfg tbl).2.map CutEntry.core).Perm
      (tbl.rows.map Row.core) := by
  unfold optimize_schedule
  simp only [List.map_append]
  set fr := filterRows cfg tbl tbl.rows with hfr
  set sc := fr.1.mergeSort endLe with hsc
  set g := greedyPass cfg.setup_time none sc with hgdef
  have hg := greedyPass_core_perm cfg.setup_time sc none
  have hs : (sc.map Candidate.core).Perm (fr.1.map Candidate.core) :=
    (List.mergeSort_perm fr.1 endLe).map _
  have hf := filterRows_core_perm cfg tbl tbl.rows
  refine (List.Perm.append_left _ List.perm_append_comm).trans ?_
  rw [← List.append_assoc]
  exact (hg.append_right _).trans ((hs.append_right _).trans hf)

/-- `okStart` against a recorded end is exactly the `≥` comparison. -/
theorem okStart_some (t s : ℚ) : okStart (some t) s = true ↔ t ≤ s := by
  simp [okStart]

/-- The events the greedy pass accepts form a feasible greedy selection. -/
theorem greedyPass_chainOk (setup_time : Bool) (l : List Candidate) :
    ∀ last_end_time,
      chainOk setup_time last_end_time
        (greedyPass setup_time last_end_time l).1 := by
  induction l with
  | nil => intro last; simp [greedyPass, chainOk]
  | cons c rest ih =>
    intro last
    by_cases hok : okStart last (effStart setup_time c) = true
    · simp only [greedyPass, hok, if_true]
      exact ⟨hok, ih _⟩
    · simp only [greedyPass, hok, if_false, Bool.false_eq_true]
      exact ih _

/-- The events the greedy pass accepts are a sublist of its input. -/
theorem greedyPass_sublist (setup_time : Bool) (l : List Candidate) :
    ∀ last_end_time,
      (greedyPass setup_time last_end_time l).1.Sublist l := by
  induction l with
  | nil => intro last; simp [greedyPass]
  | cons c rest ih =>
    intro last
    by_cases hok : okStart last (effStart setup_time c) = true
    · simp only [greedyPass, hok, if_true]
      exact (ih _).cons₂ c
    · simp only [greedyPass, hok, if_false, Bool.false_eq_true]
      exact (ih _).cons c

/-- A feasible selection from a later last-end is feasible from any
earlier one. -/
theorem chainOk_weaken (setup_time : Bool) (S : List Candidate) :
    ∀ t t' : ℚ, t' ≤ t → chainOk setup_time (some t) S →
      chainOk setup_time (some t') S := by
  induction S with
  | nil => intro t t' _ _; trivial
  | cons c S1 ih =>
    intro t t' hle h
    obtain ⟨hok, hrest⟩ := h
    exact ⟨(okStart_some t' _).mpr (le_trans hle ((okStart_some t _).mp hok)),
      hrest⟩

/-- In a feasible selection from `t` whose events all have nonnegative
effective width, every selected event starts at or after `t`. -/
theorem chainOk_le_starts (setup_time : Bool) (S : List Candidate) :
    ∀ t : ℚ, chainOk setup_time (some t) S →
      (∀ c ∈ S, effStart setup_time c ≤ effEnd setup_time c) →
      ∀ z ∈ S, t ≤ effStart setup_time z := by
  induction S with
  | nil => intro t _ _ z hz; simp at hz
  | cons b S1 ih =>
    intro t h hw z hz
    obtain ⟨hok, hrest⟩ := h
    rcases List.mem_cons.mp hz with hzb | hz1
    · subst hzb; exact (okStart_some t _).mp hok
    · have hb := hw b (List.mem_cons_self b S1)
      have hthis := ih (effEnd setup_time b) hrest
        (fun c hc => hw c (List.mem_cons_of_mem b hc)) z hz1
      have ht := (okStart_some t _).mp hok
      linarith

/-- A feasible selection with nonnegative widths is pairwise ordered:
each event's effective end is at or before every later event's start. -/
theorem chainOk_pairwise (setup_time : Bool) (S : List Candidate) :
    ∀ last_end_time, chainOk setup_time last_end_time S →
      (∀ c ∈ S, effStart setup_time c ≤ effEnd setup_time c) →
      S.Pairwise (fun a b => effEnd setup_time a ≤ effStart setup_time b) := by
  induction S with
  | nil => intro _ _ _; exact List.Pairwise.nil
  | cons c S1 ih =>
    intro last h hw
    obtain ⟨hok, hrest⟩ := h
    refine List.pairwise_cons.mpr ⟨?_, ?_⟩
    · exact chainOk_le_starts setup_time S1 (effEnd setup_time c) hrest
        (fun z hz => hw z (List.mem_cons_of_mem c hz))
    · exact ih (some (effEnd setup_time c)) hrest
        (fun z hz => hw z (List.mem_cons_of_mem c hz))

/-- Every candidate in `valid_candidates` comes from classifying a row. -/
theorem mem_filterRows (cfg : Config) (tbl : Table) (rows : List Row)
    (c : Candidate) (hc : c ∈ (filterRows cfg tbl rows).1) :
    ∃ row ∈ rows, classify cfg tbl row = .inl c := by
  induction rows with
  | nil => simp [filterRows] at hc
  | cons r rs ih =>
    rw [filterRows] at hc
    cases hcl : classify cfg tbl r with
    | inl c0 =>
      rw [hcl] at hc
      simp only at hc
      rcases List.mem_cons.mp hc with hcc | hcc
      · exact ⟨r, List.mem_cons_self r rs, by rw [hcl, hcc]⟩
      · obtain ⟨row, hrow, hcl2⟩ := ih hcc
        exact ⟨row, List.mem_cons_of_mem r hrow, hcl2⟩
    | inr e =>
      rw [hcl] at hc
      simp only at hc
      obtain ⟨row, hrow, hcl2⟩ := ih hc
      exact ⟨row, List.mem_cons_of_mem r hrow, hcl2⟩

/-- Effective widths of admitted candidates: nonnegative duration gives a
nonnegative effective width, positive duration a positive one. -/
theorem valid_width (cfg : Config) (tbl : Table) (c : Candidate)
    (hc : c ∈ (filterRows cfg tbl tbl.rows).1) :
    (0 ≤ c.duration →
      effStart cfg.setup_time c ≤ effEnd cfg.setup_time c) ∧
    (0 < c.duration →
      effStart cfg.setup_time c < effEnd cfg.setup_time c) := by
  obtain ⟨row, -, hcl⟩ := mem_filterRows cfg tbl tbl.rows c hc
  obtain ⟨-, -, -, hdv, -, hts, hte⟩ := classify_inl_facts cfg tbl row c hcl
  have hdv2 : durValue row = c.duration := hdv.symm
  unfold effStart effEnd scheduleTimes
  unfold transitTimes at hts hte
  cases hsetup : cfg.setup_time with
  | false =>
    rw [hsetup] at hts hte
    simp only [calculate_transit_times, Timedelta_hours, Bool.false_eq_true,
      if_false] at hts hte
    rw [hdv2] at hts hte
    simp only [Bool.false_eq_true, if_false]
    constructor <;> intro hd <;> rw [hts, hte] <;> linarith
  | true =>
    rw [hsetup] at hts hte
    simp only [calculate_transit_times, Timedelta_hours, Timedelta_minutes,
      if_true] at hts hte
    rw [hdv2] at hts hte
    simp only [Timedelta_minutes, if_true]
    constructor <;> intro hd <;> rw [hts, hte] <;> linarith

/-- C2: the output schedule never overlaps: in the produced order each
slot's effective end is at or before the next slot's effective start
(touching allowed), and that order is ascending in effective start, given
nonnegative durations of the admitted events. -/
theorem optimize_schedule_no_overlap (cfg : Config) (tbl : Table)
    (hd : ∀ c ∈ (filterRows cfg tbl tbl.rows).1, 0 ≤ c.duration) :
    List.Chain'
      (fun a b => effEnd cfg.setup_time a ≤ effStart cfg.setup_time b)
      (optimize_schedule cfg tbl).1 ∧
    (optimize_schedule cfg tbl).1.Pairwise
      (fun a b => effStart cfg.setup_time a ≤ effStart cfg.setup_time b) := by
  have hmemvalid : ∀ c ∈ (optimize_schedule cfg tbl).1,
      c ∈ (filterRows cfg tbl tbl.rows).1 := by
    intro c hcs
    unfold optimize_schedule at hcs
    simp only at hcs
    have hsc := (greedyPass_sublist cfg.setup_time
      ((filterRows cfg tbl tbl.rows).1.mergeSort endLe) none).subset hcs
    exact List.mem_mergeSort.mp hsc
  have hwidth : ∀ c ∈ (optimize_schedule cfg tbl).1,
      effStart cfg.setup_time c ≤ effEnd cfg.setup_time c := by
    intro c hcs
    have hv := hmemvalid c hcs
    exact (valid_width cfg tbl c hv).1 (hd c hv)
  have hchain : chainOk cfg.setup_time none (optimize_schedule cfg tbl).1 := by
    unfold optimize_schedule
    exact greedyPass_chainOk cfg.setup_time _ none
  have hpw := chainOk_pairwise cfg.setup_time _ none hchain hwidth
  refine ⟨hpw.chain', ?_⟩
  refine hpw.imp_of_mem ?_
  intro a b ha hb hr
  exact le_trans (hwidth a ha) hr

/-- C2 witness: the no-overlap and start-ordering invariants of the
concrete three-event schedule of `tblA` under the default configuration. -/
theorem optimize_schedule_no_overlap_witness :
    List.Chain'
      (fun a b => effEnd cfg0.setup_time a ≤ effStart cfg0.setup_time b)
      (optimize_schedule cfg0 tblA).1 ∧
    (optimize_schedule cfg0 tblA).1.Pairwise
      (fun a b => effStart cfg0.setup_time a ≤ effStart cfg0.setup_time b) :=
  optimize_schedule_no_overlap cfg0 tblA
    (by norm_num [filterRows, classify, durationIsNaN, periodFails,
      windowStartFails, windowEndFails, magFails, airMassFails, depthFails,
      nanAirmassFails, airmassLimitFails, effIngress, effEgress,
      transitTimes, calculate_transit_times, durValue, mkRow, cfg0, tblA,
      Timedelta_minutes, Timedelta_hours])

/-- The end-time sort key is transitive. -/
theorem endLe_trans (a b c : Candidate) (hab : endLe a b) (hbc : endLe b c) :
    endLe a c := by
  simp only [endLe, decide_eq_true_eq] at *
  linarith

/-- The end-time sort key is total. -/
theorem endLe_total (a b : Candidate) : endLe a b || endLe b a := by
  simp only [endLe, Bool.or_eq_true, decide_eq_true_eq]
  exact le_total a.tEnd b.tEnd

/-- Transit-end order implies effective-end order (the setup pad is a
uniform shift). -/
theorem endLe_effEndLe (setup_time : Bool) (a b : Candidate)
    (h : endLe a b = true) : effEndLe setup_time a b := by
  cases setup_time <;>
    simp only [endLe, decide_eq_true_eq] at h <;>
    simp only [effEndLe, effEnd, scheduleTimes, Timedelta_minutes, if_true,
      if_false, Bool.false_eq_true] <;>
    linarith

/-- Key counting bound for the greedy pass: over an end-sorted list, no
feasible selection taken from the same last-end is longer than the greedy
selection. -/
theorem chain_length_le (setup_time : Bool) (l : List Candidate) :
    l.Pairwise (effEndLe setup_time) →
    ∀ (last_end_time : Option ℚ) (S : List Candidate), S.Sublist l →
      chainOk setup_time last_end_time S →
      S.length ≤ (greedyPass setup_time last_end_time l).1.length := by
  induction l with
  | nil =>
    intro _ last S hsub _
    rw [List.sublist_nil.mp hsub]
    simp
  | cons x xs ih =>
    intro hpw last S hsub hchain
    have hx : ∀ y ∈ xs, effEndLe setup_time x y :=
      (List.pairwise_cons.mp hpw).1
    have hpw2 := (List.pairwise_cons.mp hpw).2
    by_cases hok : okStart last (effStart setup_time x) = true
    · simp only [greedyPass, hok, if_true, List.length_cons]
      cases hsub with
      | cons _ h =>
        cases S with
        | nil => simp
        | cons y S1 =>
          obtain ⟨hoky, hrest⟩ := hchain
          have hy : y ∈ xs := h.subset (List.mem_cons_self y S1)
          have hS1 : S1.Sublist xs := (List.sublist_cons_self y S1).trans h
          have hchain2 := chainOk_weaken setup_time S1 _ _ (hx y hy) hrest
          have hle := ih hpw2 (some (effEnd setup_time x)) S1 hS1 hchain2
          simp only [List.length_cons]
          omega
      | cons₂ _ h =>
        obtain ⟨hokx, hrest⟩ := hchain
        have hle := ih hpw2 (some (effEnd setup_time x)) _ h hrest
        simp only [List.length_cons]
        omega
    · simp only [greedyPass, hok, if_false, Bool.false_eq_true]
      cases hsub with
      | cons _ h => exact ih hpw2 last S h hchain
      | cons₂ _ h =>
        obtain ⟨hokx, _⟩ := hchain
        exact absurd hokx hok

/-- A pairwise non-overlapping, end-sorted selection of strictly positive
effective widths is a feasible greedy selection from any earlier event. -/
theorem pairwise_chainOk_from (setup_time : Bool) (S : List Candidate) :
    ∀ prev : Candidate,
      (∀ z ∈ S, NonOverlap setup_time prev z) →
      (∀ z ∈ S, effEnd setup_time prev ≤ effEnd setup_time z) →
      effStart setup_time prev < effEnd setup_time prev →
      S.Pairwise (NonOverlap setup_time) →
      S.Pairwise (effEndLe setup_time) →
      (∀ c ∈ S, effStart setup_time c < effEnd setup_time c) →
      chainOk setup_time (some (effEnd setup_time prev)) S := by
  induction S with
  | nil => intro prev _ _ _ _ _ _; trivial
  | cons b S1 ih =>
    intro prev hno hend hwp hpw hpwE hw
    have hokb : effEnd setup_time prev ≤ effStart setup_time b := by
      rcases hno b (List.mem_cons_self b S1) with h | h
      · exact h
      · have h1 := hend b (List.mem_cons_self b S1)
        linarith
    refine ⟨(okStart_some _ _).mpr hokb, ?_⟩
    exact ih b ((List.pairwise_cons.mp hpw).1)
      (fun z hz => (List.pairwise_cons.mp hpwE).1 z hz)
      (hw b (List.mem_cons_self b S1))
      ((List.pairwise_cons.mp hpw).2)
      ((List.pairwise_cons.mp hpwE).2)
      (fun c hc => hw c (List.mem_cons_of_mem b hc))

/-- A pairwise non-overlapping, end-sorted selection of strictly positive
effective widths is a feasible greedy selection. -/
theorem pairwise_chainOk (setup_time : Bool) (S : List Candidate)
    (hpw : S.Pairwise (NonOverlap setup_time))
    (hpwE : S.Pairwise (effEndLe setup_time))
    (hw : ∀ c ∈ S, effStart setup_time c < effEnd setup_time c) :
    chainOk setup_time none S := by
  cases S with
  | nil => trivial
  | cons a S1 =>
    refine ⟨rfl, ?_⟩
    exact pairwise_chainOk_from setup_time S1 a
      ((List.pairwise_cons.mp hpw).1)
      (fun z hz => (List.pairwise_cons.mp hpwE).1 z hz)
      (hw a (List.mem_cons_self a S1))
      ((List.pairwise_cons.mp hpw).2)
      ((List.pairwise_cons.mp hpwE).2)
      (fun c hc => hw c (List.mem_cons_of_mem a hc))

/-- A fold of `Nat.max` is bounded by any upper bound of the list. -/
theorem foldr_max_le (L : List ℕ) (m : ℕ) (h : ∀ x ∈ L, x ≤ m) :
    L.foldr Nat.max 0 ≤ m := by
  induction L with
  | nil => exact Nat.zero_le m
  | cons a L1 ih =>
    simp only [List.foldr_cons]
    exact Nat.max_le.mpr ⟨h a (List.mem_cons_self a L1),
      ih (fun x hx => h x (List.mem_cons_of_mem a hx))⟩

/-- A fold of `Nat.max` dominates every member of the list. -/
theorem le_foldr_max (L : List ℕ) (m : ℕ) (h : m ∈ L) :
    m ≤ L.foldr Nat.max 0 := by
  induction L with
  | nil => simp at h
  | cons a L1 ih =>
    simp only [List.foldr_cons]
    rcases List.mem_cons.mp h with rfl | h1
    · exact Nat.le_max_left m _
    · exact le_trans (ih h1) (Nat.le_max_right a _)

/-- C1: with strictly positive durations, the greedy pass of
`optimize_schedule` selects exactly the maximum possible number of
pairwise non-overlapping events among the admitted set. -/
theorem optimize_schedule_greedy_optimal (cfg : Config) (tbl : Table)
    (hd : ∀ c ∈ (filterRows cfg tbl tbl.rows).1, 0 < c.duration) :
    (optimize_schedule cfg tbl).1.length =
      maxCompat cfg.setup_time (filterRows cfg tbl tbl.rows).1 := by
  set valid := (filterRows cfg tbl tbl.rows).1 with hvalid
  set sc := valid.mergeSort endLe with hscdef
  set sched := (greedyPass cfg.setup_time none sc).1 with hscheddef
  have hos : (optimize_schedule cfg tbl).1 = sched := rfl
  have hw : ∀ c ∈ sc, effStart cfg.setup_time c < effEnd cfg.setup_time c := by
    intro c hc
    have hcv : c ∈ valid := List.mem_mergeSort.mp hc
    exact (valid_width cfg tbl c hcv).2 (hd c hcv)
  have hsort : sc.Pairwise (fun a b => endLe a b = true) :=
    List.sorted_mergeSort endLe_trans endLe_total valid
  have hsortEff : sc.Pairwise (effEndLe cfg.setup_time) :=
    hsort.imp (fun h => endLe_effEndLe cfg.setup_time _ _ h)
  have hub : ∀ S : List Candidate, S.Sublist valid →
      S.Pairwise (NonOverlap cfg.setup_time) → S.length ≤ sched.length := by
    intro S hSsub hSpw
    have hsp : S.Subperm sc :=
      hSsub.subperm.trans (List.mergeSort_perm valid endLe).symm.subperm
    obtain ⟨S2, hS2perm, hS2sub⟩ := hsp
    have hS2pw : S2.Pairwise (NonOverlap cfg.setup_time) :=
      (List.Perm.pairwise_iff (fun hxy => Or.symm hxy) hS2perm).mpr hSpw
    have hS2E : S2.Pairwise (effEndLe cfg.setup_time) :=
      List.Pairwise.sublist hS2sub hsortEff
    have hS2w : ∀ c ∈ S2,
        effStart cfg.setup_time c < effEnd cfg.setup_time c :=
      fun c hc => hw c (hS2sub.subset hc)
    have hchain := pairwise_chainOk cfg.setup_time S2 hS2pw hS2E hS2w
    have hle := chain_length_le cfg.setup_time sc hsortEff none S2 hS2sub
      hchain
    rw [hS2perm.length_eq] at hle
    exact hle
  have hschedsub : sched.Sublist sc := greedyPass_sublist cfg.setup_time sc none
  have hschedw : ∀ c ∈ sched,
      effStart cfg.setup_time c ≤ effEnd cfg.setup_time c :=
    fun c hc => le_of_lt (hw c (hschedsub.subset hc))
  have hschedpw : sched.Pairwise (NonOverlap cfg.setup_time) :=
    (chainOk_pairwise cfg.setup_time sched none
      (greedyPass_chainOk cfg.setup_time sc none) hschedw).imp
      (fun h => Or.inl h)
  have hsp0 : sched.Subperm valid :=
    hschedsub.subperm.trans (List.mergeSort_perm valid endLe).subperm
  obtain ⟨S0, hS0perm, hS0sub⟩ := hsp0
  have hS0pw : S0.Pairwise (NonOverlap cfg.setup_time) :=
    (List.Perm.pairwise_iff (fun hxy => Or.symm hxy) hS0perm).mpr hschedpw
  have hmemfilter : S0 ∈ valid.sublists.filter
      (fun S => decide (S.Pairwise (NonOverlap cfg.setup_time))) :=
    List.mem_filter.mpr ⟨List.mem_sublists.mpr hS0sub,
      decide_eq_true hS0pw⟩
  have hmemmap : sched.length ∈ (valid.sublists.filter
      (fun S => decide (S.Pairwise (NonOverlap cfg.setup_time)))).map
      List.length :=
    List.mem_map.mpr ⟨S0, hmemfilter, hS0perm.length_eq⟩
  rw [hos]
  unfold maxCompat
  refine le_antisymm (le_foldr_max _ _ hmemmap) (foldr_max_le _ _ ?_)
  intro x hx
  obtain ⟨S, hSf, hSlen⟩ := List.mem_map.mp hx
  obtain ⟨hSsubl, hSpwb⟩ := List.mem_filter.mp hSf
  rw [← hSlen]
  exact hub S (List.mem_sublists.mp hSsubl) (of_decide_eq_true hSpwb)

/-- C1 witness: on the concrete three-event table the greedy schedule
cardinality equals the maximum non-overlapping subset size. -/
theorem optimize_schedule_greedy_optimal_witness :
    (optimize_schedule cfg0 tblA).1.length =
      maxCompat cfg0.setup_time (filterRows cfg0 tblA tblA.rows).1 :=
  optimize_schedule_greedy_optimal cfg0 tblA
    (by norm_num [filterRows, classify, durationIsNaN, periodFails,
      windowStartFails, windowEndFails, magFails, airMassFails, depthFails,
      nanAirmassFails, airmassLimitFails, effIngress, effEgress,
      transitTimes, calculate_transit_times, durValue, mkRow, cfg0, tblA,
      Timedelta_minutes, Timedelta_hours])

end Ephemeris
